import Mathlib

/-!
Shallow embedding of the pool allocator in include/customallocator.h:
PoolState<T> (block store, bump allocation, free list, reservation) and
CustomAllocator<T, ChunkElems, Expandable, PerElementFree> (the allocator
front-end over a shared PoolHandle).

Modelling conventions:
* size_t is modelled as Nat with every arithmetic operation reduced
  mod W = 2^64 exactly where the C++ computes in size_t (additions in
  bounds checks, the bump-offset update, the availability accumulation).
* A raw pointer returned by the pool is identified by the pair
  (block index, element offset): the code returns
  blocks[current_block_index] + current_offset * element_size, and distinct
  blocks are disjoint system allocations, so two returned pointers are equal
  exactly when their (block, offset) pairs are equal (element_size > 0).
* The blocks / block_elems vectors are pushed in lockstep, so the model
  keeps only block_elems; blocks.empty() is block_elems.isEmpty and
  blocks.size() is block_elems.length.
* The system allocator (operator new(nothrow)) is an oracle Bool sysOk:
  addBlockT models one growth attempt together with whether the system
  allocation succeeds; addBlock is the always-succeeding instance used
  where a claim is about the pool logic rather than exhaustion.
* A C++ exception is an AErr value: badAlloc for std::bad_alloc
  (capacity-exceeded / out-of-memory / missing pool), badArrayNewLength for
  std::bad_array_new_length (size-limit-exceeded), invalidArgument for
  std::invalid_argument (invalid chunk configuration).
* shared_ptr identity (used by operator==) is modelled by tagging each live
  PoolState with a Nat identity.
-/

namespace CustomAlloc

/-- Width of size_t: all C++ size_t arithmetic is taken mod W. -/
def W : Nat := 2 ^ 64

/-- The observable failure conditions (C++ exception types) of the allocator. -/
inductive AErr where
  | badAlloc
  | badArrayNewLength
  | invalidArgument
deriving DecidableEq, Repr

/-- A pointer handed out by the pool: (block index, element offset within it). -/
abbrev Ptr := Nat × Nat

/-- PoolState<T> (customallocator.h lines 15-124), sans the raw block base
addresses: block_elems mirrors the capacities vector, and blocks.size()
always equals block_elems.size() since the two are pushed together. -/
structure PoolSt where
  block_elems : List Nat
  chunk_elems : Nat
  element_size : Nat
  current_block_index : Nat
  current_offset : Nat
  free_list : List Ptr
deriving DecidableEq, Repr

/-- PoolState::add_block (lines 40-52) together with the system-allocator
oracle sysOk: elems == 0 is a no-op; a failed system allocation throws
bad_alloc before any bookkeeping is touched; on success the capacities
vector grows by elems, the new block becomes current and the offset resets.
The byte count elems * element_size is passed to operator new only, so it
does not appear in the recorded state. -/
def addBlockT (sysOk : Bool) (s : PoolSt) (elems : Nat) :
    Except AErr Unit × PoolSt :=
  if elems = 0 then (.ok (), s)
  else if sysOk then
    (.ok (), { s with
      block_elems := s.block_elems ++ [elems],
      current_block_index := s.block_elems.length,
      current_offset := 0 })
  else (.error .badAlloc, s)

/-- add_block when the system allocator succeeds. -/
def addBlock (s : PoolSt) (elems : Nat) : PoolSt :=
  (addBlockT true s elems).2

/-- PoolState::current_block_has (lines 54-57): the C++ comparison
current_offset + n <= block_elems[current_block_index] is size_t
arithmetic, so the sum wraps mod W. -/
def currentBlockHas (s : PoolSt) (n : Nat) : Bool :=
  if s.block_elems.isEmpty then false
  else (s.current_offset + n) % W ≤ s.block_elems.getD s.current_block_index 0

/-- PoolState::alloc_from_current (lines 59-67): throws bad_alloc when the
room check fails (before any mutation), else returns the bump pointer and
advances the offset by n (size_t, hence mod W). -/
def allocFromCurrent (s : PoolSt) (n : Nat) : Except AErr (Ptr × PoolSt) :=
  if currentBlockHas s n then
    .ok ((s.current_block_index, s.current_offset),
         { s with current_offset := (s.current_offset + n) % W })
  else .error .badAlloc

/-- The availability sum of PoolState::reserve_elements (lines 72-79): for
the current block the headroom block_elems[i] - current_offset (size_t
subtraction, mod W), for every other block its full capacity; the running
sum is itself size_t. -/
def availSum (s : PoolSt) : Nat :=
  (List.range s.block_elems.length).foldl
    (fun acc i =>
      (acc + (if i = s.current_block_index
              then (s.block_elems.getD i 0 + W - s.current_offset) % W
              else s.block_elems.getD i 0)) % W) 0

/-- The while-loop of PoolState::reserve_elements (lines 83-88): each pass
grows by max(chunk_elems, need) and exits once need <= that step. -/
def reserveLoop (chunk : Nat) (need : Nat) (s : PoolSt) : PoolSt :=
  if need = 0 then s
  else if need ≤ Nat.max chunk need then addBlock s (Nat.max chunk need)
  else reserveLoop chunk (need - Nat.max chunk need) (addBlock s (Nat.max chunk need))
termination_by need
decreasing_by
  simp_wf
  omega

/-- PoolState::reserve_elements (lines 69-89): a zero request and an already
sufficient availability are no-ops; otherwise the loop covers the shortfall
total_elems - availSum (exact: the branch guarantees no underflow). -/
def reserveElements (s : PoolSt) (total_elems : Nat) : PoolSt :=
  if total_elems = 0 then s
  else if total_elems ≤ availSum s then s
  else reserveLoop s.chunk_elems (total_elems - availSum s) s

/-- PoolState::push_free (lines 102-104): vector push_back onto free_list. -/
def pushFree (s : PoolSt) (p : Ptr) : PoolSt :=
  { s with free_list := s.free_list ++ [p] }

/-- PoolState::pop_free (lines 106-111): nullptr on empty, else pops the
back slot. -/
def popFree (s : PoolSt) : Option Ptr × PoolSt :=
  match s.free_list.getLast? with
  | none => (none, s)
  | some p => (some p, { s with free_list := s.free_list.dropLast })

/-- The PoolState constructor body (lines 19-30) after the chunk_elems > 0
validation: zero-initialised bookkeeping, then add_block(chunk_elems). -/
def initPool (chunk_elems element_size : Nat) : PoolSt :=
  addBlock ⟨[], chunk_elems, element_size, 0, 0, []⟩ chunk_elems

/-- The PoolState constructor (lines 19-30) including the validation:
chunk_elems == 0 throws std::invalid_argument. -/
def mkPoolState (chunk_elems element_size : Nat) : Except AErr PoolSt :=
  if chunk_elems = 0 then .error .invalidArgument
  else .ok (initPool chunk_elems element_size)

/-- CustomAllocator::max_size (lines 249-251):
numeric_limits<size_t>::max() / sizeof(T). -/
def maxSize (element_size : Nat) : Nat := (W - 1) / element_size

/-- PoolHandle<T> (lines 127-149): a possibly reset shared reference to one
PoolState; the state carries a Nat identity standing for the shared_ptr
address so that operator== can compare pool identity. -/
structure HandleSt where
  state : Option (Nat × PoolSt)
deriving DecidableEq, Repr

/-- CustomAllocator<T> (lines 152-276): the front-end's handle_ shared_ptr,
which is absent (null) for an allocator cross-type-constructed from a
source without a handle. The policy flags Expandable / PerElementFree are
passed to the operations explicitly. -/
structure AllocatorFE where
  handle : Option HandleSt
deriving DecidableEq, Repr

/-- CustomAllocator::get_state (lines 176-181): null unless the handle is
present and still valid. -/
def getState (a : AllocatorFE) : Option (Nat × PoolSt) :=
  match a.handle with
  | some h => h.state
  | none => none

/-- In-place mutation of the shared pool state reached through the handle
(the C++ operations mutate *state); only applied where getState is some. -/
def setState (_a : AllocatorFE) (id : Nat) (s : PoolSt) : AllocatorFE :=
  { handle := some { state := some (id, s) } }

/-- The pool identity the front-end's operator== compares
(get_state().get(); none models nullptr). -/
def stateId (a : AllocatorFE) : Option Nat :=
  (getState a).map Prod.fst

/-- CustomAllocator::operator== (lines 263-266): raw pointer equality of the
two get_state() results. -/
def eqFE (a b : AllocatorFE) : Bool :=
  stateId a = stateId b

/-- The pool-level body of CustomAllocator::allocate (lines 202-233) once a
state is held, parameterised by the Expandable / PerElementFree policy:
n == 0 returns nullptr; n > max_size() throws bad_array_new_length;
a non-expandable pool refuses n > chunk_elems with bad_alloc; the
per-element-free fast path pops a recycled slot for n == 1; else bump
allocation from the current block, growing by max(n, chunk_elems) first
when expandable. -/
def allocateSt (expandable perElementFree : Bool) (s : PoolSt) (n : Nat) :
    Except AErr (Option Ptr) × PoolSt :=
  if n = 0 then (.ok none, s)
  else if maxSize s.element_size < n then (.error .badArrayNewLength, s)
  else if expandable = false ∧ s.chunk_elems < n then (.error .badAlloc, s)
  else
    match (if perElementFree = true ∧ n = 1 then popFree s else (none, s)) with
    | (some p, s1) => (.ok (some p), s1)
    | (none, s1) =>
      if currentBlockHas s1 n then
        match allocFromCurrent s1 n with
        | .ok (p, s2) => (.ok (some p), s2)
        | .error e => (.error e, s1)
      else if expandable = false then (.error .badAlloc, s1)
      else
        match allocFromCurrent (addBlock s1 (Nat.max n s1.chunk_elems)) n with
        | .ok (p, s2) => (.ok (some p), s2)
        | .error e => (.error e, addBlock s1 (Nat.max n s1.chunk_elems))

/-- CustomAllocator::allocate (lines 202-233): a missing or reset handle
throws bad_alloc before anything else (so even n == 0 fails there); else
the pool-level body runs on the shared state. -/
def allocateFE (expandable perElementFree : Bool) (a : AllocatorFE) (n : Nat) :
    Except AErr (Option Ptr) × AllocatorFE :=
  match getState a with
  | none => (.error .badAlloc, a)
  | some (id, s) =>
    match allocateSt expandable perElementFree s n with
    | (r, s1) => (r, setState a id s1)

/-- CustomAllocator::deallocate (lines 235-247): null pointer and missing
state are no-ops; with per-element-free and n == 1 the slot is pushed onto
the free list; every other case is a no-op. Never fails. -/
def deallocateFE (perElementFree : Bool) (a : AllocatorFE) (p : Option Ptr)
    (n : Nat) : AllocatorFE :=
  match p with
  | none => a
  | some q =>
    match getState a with
    | none => a
    | some (id, s) =>
      if perElementFree = true ∧ n = 1 then setState a id (pushFree s q)
      else a

/-- CustomAllocator::reserve_elements (lines 253-257): forwards to the pool
when a state is held, else a no-op. -/
def reserveFE (a : AllocatorFE) (count : Nat) : AllocatorFE :=
  match getState a with
  | none => a
  | some (id, s) => setState a id (reserveElements s count)

/-- The converting constructor CustomAllocator<T>(const CustomAllocator<U>&)
(lines 187-194): handle_ starts null; when the source's get_handle() is
non-null a brand-new PoolHandle (hence a fresh PoolState of one chunk-sized
block, with a fresh identity newId) is created. -/
def convertCtor (other : AllocatorFE) (chunk_elems element_size newId : Nat) :
    AllocatorFE :=
  match other.handle with
  | some _ => { handle := some { state := some (newId, initPool chunk_elems element_size) } }
  | none => { handle := none }

/-- Whether an allocate result is a returned pointer (no exception, not the
n == 0 nullptr result). -/
def isOkSome : Except AErr (Option Ptr) → Bool
  | .ok (some _) => true
  | _ => false

/-- A run of k successive allocate(1) calls on one pool (Expandable = true):
whether every call produced a pointer, and the final pool state. -/
def alloc1Run (perElementFree : Bool) : Nat → PoolSt → Bool × PoolSt
  | 0, s => (true, s)
  | k + 1, s =>
    ((isOkSome (allocateSt true perElementFree s 1).1
        && (alloc1Run perElementFree k (allocateSt true perElementFree s 1).2).1),
     (alloc1Run perElementFree k (allocateSt true perElementFree s 1).2).2)

/-- The pool state written with a replicated block list, as produced by a
pure allocate(1) run: b blocks of capacity g each, current block the last,
bump offset off, empty free list. -/
def poolShape (g es b off : Nat) : PoolSt :=
  ⟨List.replicate b g, g, es, b - 1, off, []⟩

/-- The (block count, bump offset) transition of one allocate(1) call on a
poolShape state (mirroring the room check's mod-W arithmetic). -/
def stepBO (g : Nat) (bo : Nat × Nat) : Nat × Nat :=
  if (bo.2 + 1) % W ≤ g then (bo.1, (bo.2 + 1) % W) else (bo.1 + 1, 1)

/-- A reachable pool: chunk 10, element size 1, after allocate(10) filled
block 0 and allocate(1) grew a second block and bumped one element into it.
Blocks [10, 10], current block 1, offset 1: bump headroom is 9 elements,
while block 0 is unreachable for bump allocation. -/
def c1Pool : PoolSt :=
  (allocateSt true false (allocateSt true false (initPool 10 1) 10).2 1).2

lemma fe_shape (a : AllocatorFE) (id : Nat) (s : PoolSt)
    (h : getState a = some (id, s)) :
    a = { handle := some { state := some (id, s) } } := by
  cases a with
  | mk handle =>
    cases handle with
    | none => simp [getState] at h
    | some hs =>
      cases hs with
      | mk st =>
        simp only [getState] at h
        subst h
        rfl

lemma one_le_maxSize {es : Nat} (h0 : 0 < es) (hW : es < W) : 1 ≤ maxSize es := by
  rw [maxSize, Nat.one_le_div_iff h0]
  omega

lemma reserve_step (s : PoolSt) (total : Nat) (h : availSum s < total) :
    reserveElements s total
      = addBlock s (Nat.max s.chunk_elems (total - availSum s)) := by
  rw [reserveElements, if_neg (by omega), if_neg (by omega),
    reserveLoop, if_neg (by omega), if_pos (Nat.le_max_right _ _)]

/-- C8: a growth attempt on which the system allocator fails throws
out-of-memory and leaves the pool state exactly as it was: no partial or
empty block is recorded and no bookkeeping field changes. -/
theorem c8_failed_growth_leaves_state (s : PoolSt) (elems : Nat)
    (h : elems ≠ 0) :
    addBlockT false s elems = (.error .badAlloc, s) := by
  simp [addBlockT, h]

theorem c8_witness :
    addBlockT false (initPool 10 1) 5 = (.error .badAlloc, initPool 10 1) :=
  c8_failed_growth_leaves_state (initPool 10 1) 5 (by decide)

/-- C10: with the handle absent or its state reset, allocate fails with
bad_alloc for every count (zero included) and returns the front-end
untouched, while deallocate and reserve are total no-ops. -/
theorem c10_missing_state_ops (exp pef : Bool) (a : AllocatorFE)
    (n m : Nat) (p : Option Ptr) (h : getState a = none) :
    allocateFE exp pef a n = (.error .badAlloc, a) ∧
    deallocateFE pef a p m = a ∧
    reserveFE a n = a := by
  refine ⟨?_, ?_, ?_⟩
  · simp [allocateFE, h]
  · cases p with
    | none => rfl
    | some q => simp [deallocateFE, h]
  · simp [reserveFE, h]

theorem c10_witness :
    allocateFE true false ⟨none⟩ 0 = (.error .badAlloc, ⟨none⟩) ∧
    deallocateFE false ⟨none⟩ (some (0, 0)) 1 = ⟨none⟩ ∧
    reserveFE ⟨none⟩ 0 = ⟨none⟩ :=
  c10_missing_state_ops true false ⟨none⟩ 0 1 (some (0, 0)) rfl

/-- C2: the has-room check is NOT correct over the unbounded naturals: on a
reachable pool (one block of capacity 10, bump offset 5, reached by
allocating 5 of 10) the request n = 2^64 - 1 wraps the size_t sum
current_offset + n, so the check answers true although the true remaining
capacity is only 5 elements. -/
theorem c2_has_room_check_wraps :
    currentBlockHas (allocateSt true false (initPool 10 1) 5).2 (W - 1) = true ∧
    (allocateSt true false (initPool 10 1) 5).2.block_elems.getD
        (allocateSt true false (initPool 10 1) 5).2.current_block_index 0
      - (allocateSt true false (initPool 10 1) 5).2.current_offset < W - 1 := by
  constructor
  · decide
  · decide

/-- C7: with per-element-free disabled, a pointer can be returned twice by
allocate on the same pool: after allocate(1) returns p = block 0 offset 0
and deallocate(p, 1) is a no-op, allocate(2^64 - 1) passes the wrapped room
check and wraps the bump offset back to 0, so the next allocate(1) returns
p again. -/
theorem c7_pointer_returned_again :
    (allocateFE true false ⟨some ⟨some (0, initPool 10 1)⟩⟩ 1).1
      = .ok (some (0, 0)) ∧
    (allocateFE true false
        (allocateFE true false
          (deallocateFE false
            (allocateFE true false ⟨some ⟨some (0, initPool 10 1)⟩⟩ 1).2
            (some (0, 0)) 1)
          (W - 1)).2
        1).1
      = .ok (some (0, 0)) := by
  constructor
  · rfl
  · rfl

/-- C1 counterexample: on c1Pool the current block's headroom is 9, so
reserve(15) is short by 6 elements under the claim's accounting, yet the
call appends nothing: the code also counts the 10 fully consumed elements
of block 0 as available (10 + 9 >= 15) and returns without growing. -/
theorem c1_counterexample :
    c1Pool.block_elems.getD c1Pool.current_block_index 0
        - c1Pool.current_offset + 6 = 15 ∧
    reserveElements c1Pool 15 = c1Pool := by
  constructor
  · decide
  · rw [reserveElements, if_neg (by decide), if_pos (by decide)]

/-- C1 amended: with availability measured as the code measures it (every
block's full capacity, minus the bump offset for the current block only),
a reserve(total) that is short by d = total - available > 0 appends exactly
one block of capacity max(chunk, d): combined new capacity at least d,
never below the chunk granularity, and exactly d when d exceeds the chunk. -/
theorem c1_reserve_growth (s : PoolSt) (total : Nat)
    (h : availSum s < total) :
    (reserveElements s total).block_elems
        = s.block_elems ++ [Nat.max s.chunk_elems (total - availSum s)] ∧
    total - availSum s ≤ Nat.max s.chunk_elems (total - availSum s) ∧
    s.chunk_elems ≤ Nat.max s.chunk_elems (total - availSum s) ∧
    (s.chunk_elems < total - availSum s →
        Nat.max s.chunk_elems (total - availSum s) = total - availSum s) := by
  rw [reserve_step s total h]
  have hpos : 0 < Nat.max s.chunk_elems (total - availSum s) :=
    lt_of_lt_of_le (by omega) (Nat.le_max_right _ _)
  have hae : Nat.max s.chunk_elems (total - availSum s) ≠ 0 := hpos.ne'
  refine ⟨?_, Nat.le_max_right _ _, Nat.le_max_left _ _,
    fun hlt => Nat.max_eq_right hlt.le⟩
  simp [addBlock, addBlockT, hae]

theorem c1_witness :
    availSum (initPool 10 1) < 15 ∧
    ((reserveElements (initPool 10 1) 15).block_elems
        = (initPool 10 1).block_elems
          ++ [Nat.max (initPool 10 1).chunk_elems (15 - availSum (initPool 10 1))] ∧
     15 - availSum (initPool 10 1)
        ≤ Nat.max (initPool 10 1).chunk_elems (15 - availSum (initPool 10 1)) ∧
     (initPool 10 1).chunk_elems
        ≤ Nat.max (initPool 10 1).chunk_elems (15 - availSum (initPool 10 1)) ∧
     ((initPool 10 1).chunk_elems < 15 - availSum (initPool 10 1) →
        Nat.max (initPool 10 1).chunk_elems (15 - availSum (initPool 10 1))
          = 15 - availSum (initPool 10 1))) :=
  ⟨by decide, c1_reserve_growth (initPool 10 1) 15 (by decide)⟩

/-- C3 counterexample: reserve_elements never checks max_size. With element
size 8 (max_size = 2^61 - 1), reserving 2^61 + 2 elements on a fresh
one-element pool appends a block whose recorded capacity 2^61 + 1 exceeds
max_size, instead of failing with size-limit-exceeded before any mutation. -/
theorem c3_counterexample :
    maxSize 8
      < (reserveElements (initPool 1 8) (2 ^ 61 + 2)).block_elems.getD 1 0 := by
  rw [reserve_step (initPool 1 8) (2 ^ 61 + 2) (by decide)]
  decide

/-- C3 amended: allocate(n) rejects n > max_size with the
size-limit-exceeded condition before any pool mutation or system request;
reserve, by contrast, performs no such check. -/
theorem c3_allocate_size_limit (exp pef : Bool) (a : AllocatorFE) (id : Nat)
    (s : PoolSt) (n : Nat) (hs : getState a = some (id, s))
    (hn : maxSize s.element_size < n) :
    allocateFE exp pef a n = (.error .badArrayNewLength, a) := by
  have ha := fe_shape a id s hs
  subst ha
  have hn0 : n ≠ 0 := by omega
  simp [allocateFE, getState, allocateSt, hn0, hn, setState]

theorem c3_witness :
    getState ⟨some ⟨some (0, initPool 10 2)⟩⟩ = some (0, initPool 10 2) ∧
    maxSize (initPool 10 2).element_size < 2 ^ 63 ∧
    allocateFE true false ⟨some ⟨some (0, initPool 10 2)⟩⟩ (2 ^ 63)
      = (.error .badArrayNewLength, ⟨some ⟨some (0, initPool 10 2)⟩⟩) :=
  ⟨rfl, by decide,
    c3_allocate_size_limit true false ⟨some ⟨some (0, initPool 10 2)⟩⟩ 0
      (initPool 10 2) (2 ^ 63) rfl (by decide)⟩

/-- C4 counterexample: a non-expandable allocator over 2-byte elements with
chunk 10, asked for 2^63 > max_size = 2^63 - 1 elements, fails with the
size-limit-exceeded condition (bad_array_new_length), not the
capacity-exceeded condition (bad_alloc) the claim names for every n > chunk. -/
theorem c4_counterexample :
    (allocateFE false false ⟨some ⟨some (0, initPool 10 2)⟩⟩ (2 ^ 63)).1
        = .error .badArrayNewLength ∧
    (Except.error .badArrayNewLength : Except AErr (Option Ptr))
        ≠ .error .badAlloc := by
  refine ⟨rfl, by simp⟩

/-- C4 amended: for a non-expandable configuration and n above the pool's
chunk size, allocate(n) always fails and leaves the front-end (hence the
pool state) unchanged; the condition is capacity-exceeded (bad_alloc) when
n ≤ max_size and size-limit-exceeded (bad_array_new_length) when
n > max_size, the size check coming first. -/
theorem c4_nonexpandable_rejects (pef : Bool) (a : AllocatorFE) (id : Nat)
    (s : PoolSt) (n : Nat) (hs : getState a = some (id, s))
    (hn : s.chunk_elems < n) :
    (allocateFE false pef a n).2 = a ∧
    (n ≤ maxSize s.element_size →
      (allocateFE false pef a n).1 = .error .badAlloc) ∧
    (maxSize s.element_size < n →
      (allocateFE false pef a n).1 = .error .badArrayNewLength) := by
  have ha := fe_shape a id s hs
  subst ha
  have hn0 : n ≠ 0 := by omega
  by_cases hm : maxSize s.element_size < n
  · refine ⟨?_, fun hle => by omega, fun _ => ?_⟩
    · simp [allocateFE, getState, allocateSt, hn0, hm, setState]
    · simp [allocateFE, getState, allocateSt, hn0, hm]
  · refine ⟨?_, fun _ => ?_, fun hlt => by omega⟩
    · simp [allocateFE, getState, allocateSt, hn0, hm, hn, setState]
    · simp [allocateFE, getState, allocateSt, hn0, hm, hn]

theorem c4_witness :
    (initPool 10 2).chunk_elems < 11 ∧
    ((allocateFE false false ⟨some ⟨some (0, initPool 10 2)⟩⟩ 11).2
        = ⟨some ⟨some (0, initPool 10 2)⟩⟩ ∧
     (11 ≤ maxSize (initPool 10 2).element_size →
       (allocateFE false false ⟨some ⟨some (0, initPool 10 2)⟩⟩ 11).1
         = .error .badAlloc) ∧
     (maxSize (initPool 10 2).element_size < 11 →
       (allocateFE false false ⟨some ⟨some (0, initPool 10 2)⟩⟩ 11).1
         = .error .badArrayNewLength)) :=
  ⟨by decide,
    c4_nonexpandable_rejects false ⟨some ⟨some (0, initPool 10 2)⟩⟩ 0
      (initPool 10 2) 11 rfl (by decide)⟩

/-- C5: with per-element-free enabled, deallocate(p, 1) followed immediately
by allocate(1) pops the just-pushed slot and returns the very pointer p,
and the round trip restores the front-end (hence the bump offset, the block
sequence, the capacities and the free list) exactly. -/
theorem c5_dealloc_alloc_roundtrip (exp : Bool) (a : AllocatorFE) (id : Nat)
    (s : PoolSt) (p : Ptr) (hs : getState a = some (id, s))
    (hes : 0 < s.element_size) (hesW : s.element_size < W)
    (hch : 0 < s.chunk_elems) :
    allocateFE exp true (deallocateFE true a (some p) 1) 1
      = (.ok (some p), a) := by
  have ha := fe_shape a id s hs
  subst ha
  have hmax : ¬ maxSize s.element_size < 1 := by
    have := one_le_maxSize hes hesW
    omega
  have hchn : ¬ (exp = false ∧ s.chunk_elems < 1) := by
    rintro ⟨-, h⟩
    omega
  simp [deallocateFE, getState, setState, pushFree, allocateFE, allocateSt,
    hmax, hchn, hch.ne', popFree]

theorem c5_witness :
    getState ⟨some ⟨some (0, initPool 10 1)⟩⟩ = some (0, initPool 10 1) ∧
    allocateFE true true
        (deallocateFE true ⟨some ⟨some (0, initPool 10 1)⟩⟩ (some (0, 0)) 1) 1
      = (.ok (some (0, 0)), ⟨some ⟨some (0, initPool 10 1)⟩⟩) :=
  ⟨rfl,
    c5_dealloc_alloc_roundtrip true ⟨some ⟨some (0, initPool 10 1)⟩⟩ 0
      (initPool 10 1) (0, 0) rfl (by decide) (by decide) (by decide)⟩

/-- C9: constructing an allocator over a different element type from a
source with a valid pool yields a brand-new pool state (a fresh identity
newId, one fresh block of exactly the chunk capacity), so the two
front-ends reference distinct storage and compare unequal both ways. -/
theorem c9_convert_creates_fresh (a : AllocatorFE) (id : Nat) (s : PoolSt)
    (chunk es newId : Nat) (hs : getState a = some (id, s))
    (hch : 0 < chunk) (hnew : newId ≠ id) :
    getState (convertCtor a chunk es newId)
        = some (newId, initPool chunk es) ∧
    (initPool chunk es).block_elems = [chunk] ∧
    eqFE (convertCtor a chunk es newId) a = false ∧
    eqFE a (convertCtor a chunk es newId) = false := by
  have ha := fe_shape a id s hs
  subst ha
  refine ⟨rfl, ?_, ?_, ?_⟩
  · simp [initPool, addBlock, addBlockT, hch.ne']
  · simpa [eqFE, stateId, convertCtor, getState] using hnew
  · simpa [eqFE, stateId, convertCtor, getState] using fun h => hnew h.symm

theorem c9_witness :
    getState ⟨some ⟨some (0, initPool 10 1)⟩⟩ = some (0, initPool 10 1) ∧
    (getState (convertCtor ⟨some ⟨some (0, initPool 10 1)⟩⟩ 10 4 1)
        = some (1, initPool 10 4) ∧
     (initPool 10 4).block_elems = [10] ∧
     eqFE (convertCtor ⟨some ⟨some (0, initPool 10 1)⟩⟩ 10 4 1)
        ⟨some ⟨some (0, initPool 10 1)⟩⟩ = false ∧
     eqFE ⟨some ⟨some (0, initPool 10 1)⟩⟩
        (convertCtor ⟨some ⟨some (0, initPool 10 1)⟩⟩ 10 4 1) = false) :=
  ⟨rfl,
    c9_convert_creates_fresh ⟨some ⟨some (0, initPool 10 1)⟩⟩ 0
      (initPool 10 1) 10 4 1 rfl (by decide) (by decide)⟩

lemma getD_replicate (g b i : Nat) (h : i < b) :
    (List.replicate b g).getD i 0 = g := by
  simp [List.getD_eq_getElem?_getD, List.getElem?_replicate, h]

lemma one_lt_W : 1 < W := by decide

lemma currentBlockHas_shape (g es b off n : Nat) :
    currentBlockHas (poolShape g es (b + 1) off) n
      = ((off + n) % W ≤ g) := by
  have hgd : (List.replicate (b + 1) g).getD ((b + 1) - 1) 0 = g :=
    getD_replicate g (b + 1) b (by omega)
  simp [currentBlockHas, poolShape, List.replicate_succ] at hgd ⊢
  rw [hgd]

lemma allocateSt_one_shape (pef : Bool) (g es b off : Nat)
    (hg : 0 < g) (hes : 0 < es) (hesW : es < W) :
    allocateSt true pef (poolShape g es (b + 1) off) 1 =
      if (off + 1) % W ≤ g
      then (.ok (some (b, off)), poolShape g es (b + 1) ((off + 1) % W))
      else (.ok (some (b + 1, 0)), poolShape g es (b + 2) 1) := by
  have hmax : ¬ maxSize es < 1 := by
    have := one_le_maxSize hes hesW
    omega
  have hgd : (List.replicate (b + 1) g).getD b 0 = g :=
    getD_replicate g (b + 1) b (by omega)
  have hgd2 : (List.replicate (b + 2) g).getD (b + 1) 0 = g :=
    getD_replicate g (b + 2) (b + 1) (by omega)
  have hne : (List.replicate (b + 1) g).isEmpty = false := by
    simp [List.replicate_succ]
  have hne2 : (List.replicate (b + 2) g).isEmpty = false := by
    simp [List.replicate_succ]
  have hrep : List.replicate (b + 1) g ++ [g] = List.replicate (b + 2) g :=
    (List.replicate_succ' (b + 1) g).symm
  have h1W : 1 % W = 1 := Nat.mod_eq_of_lt one_lt_W
  by_cases hc : (off + 1) % W ≤ g
  · rw [if_pos hc]
    simp [allocateSt, allocFromCurrent, currentBlockHas, popFree, poolShape,
      hmax, hc, hgd, hne]
  · rw [if_neg hc]
    simp [allocateSt, allocFromCurrent, currentBlockHas, popFree, poolShape,
      addBlock, addBlockT, Nat.max_eq_right hg, hg.ne', hrep,
      hmax, hc, hgd, hgd2, hne, hne2, h1W, hg]
    rw [if_pos (by omega : 1 ≤ g)]

lemma alloc1Run_shape (pef : Bool) (g es : Nat)
    (hg : 0 < g) (hes : 0 < es) (hesW : es < W) :
    ∀ k b off, 0 < b → off ≤ g →
      alloc1Run pef k (poolShape g es b off)
        = (true, poolShape g es ((stepBO g)^[k] (b, off)).1
            ((stepBO g)^[k] (b, off)).2) := by
  intro k
  induction k with
  | zero =>
    intro b off hb hoff
    simp [alloc1Run]
  | succ k ih =>
    intro b off hb hoff
    obtain ⟨b0, rfl⟩ : ∃ b0, b = b0 + 1 := ⟨b - 1, by omega⟩
    simp only [alloc1Run, allocateSt_one_shape pef g es b0 off hg hes hesW,
      Function.iterate_succ_apply]
    by_cases hc : (off + 1) % W ≤ g
    · have hsb : stepBO g (b0 + 1, off) = (b0 + 1, (off + 1) % W) := by
        simp [stepBO, hc]
      rw [if_pos hc, hsb]
      rw [ih (b0 + 1) ((off + 1) % W) (by omega) hc]
      simp [isOkSome]
    · have hsb : stepBO g (b0 + 1, off) = (b0 + 2, 1) := by
        simp [stepBO, hc]
      rw [if_neg hc, hsb]
      rw [ih (b0 + 2) 1 (by omega) hg]
      simp [isOkSome]

lemma stepBO_closed (g : Nat) (hg : 0 < g) (hgW : g + 1 < W) :
    ∀ m, 1 ≤ m → (stepBO g)^[m] (1, 0) = ((m - 1) / g + 1, (m - 1) % g + 1) := by
  intro m
  induction m with
  | zero => omega
  | succ m ih =>
    intro _
    by_cases hm : m = 0
    · subst hm
      have h1 : (0 + 1) % W = 1 := Nat.mod_eq_of_lt one_lt_W
      simp [stepBO, h1, hg, hg.ne']
    · have hm1 : 1 ≤ m := by omega
      rw [Function.iterate_succ_apply', ih hm1]
      simp only [Nat.add_sub_cancel]
      have hq := Nat.div_add_mod (m - 1) g
      set q := (m - 1) / g with hqdef
      set r := (m - 1) % g with hrdef
      have hr : r < g := Nat.mod_lt _ hg
      have hm' : m = (r + 1) + g * q := by omega
      by_cases hrg : r + 1 < g
      · have hmod : (r + 1 + 1) % W = r + 2 := Nat.mod_eq_of_lt (by omega)
        have h1 : m / g = q := by
          rw [hm', Nat.add_mul_div_left _ _ hg, Nat.div_eq_of_lt hrg,
            Nat.zero_add]
        have h2 : m % g = r + 1 := by
          rw [hm', Nat.add_mul_mod_self_left, Nat.mod_eq_of_lt hrg]
        simp [stepBO, hmod, (by omega : r + 2 ≤ g), h1, h2]
      · have hrg' : r + 1 = g := by omega
        have hmod : (r + 1 + 1) % W = g + 1 := by
          rw [hrg']
          exact Nat.mod_eq_of_lt hgW
        have hmg : m = g * (q + 1) := by
          rw [Nat.mul_add, Nat.mul_one]
          omega
        have h1 : m / g = q + 1 := by
          rw [hmg, Nat.mul_div_cancel_left _ hg]
        have h2 : m % g = 0 := by
          rw [hmg, Nat.mul_mod_right]
        simp [stepBO, hmod, (by omega : ¬ g + 1 ≤ g), h1, h2]

lemma stepBO_fst_const (g : Nat) (hgW : W ≤ g + 1) :
    ∀ m bo, ((stepBO g)^[m] bo).1 = bo.1 := by
  intro m
  induction m with
  | zero => intro bo; rfl
  | succ m ih =>
    intro bo
    rw [Function.iterate_succ_apply, ih]
    have : (bo.2 + 1) % W ≤ g := by
      have h2 := Nat.mod_lt (bo.2 + 1) (lt_trans Nat.zero_lt_one one_lt_W)
      omega
    simp [stepBO, this]

/-- C6: on a fresh expandable pool with chunk granularity g, every one of
k > g successive allocate(1) calls returns a pointer (no capacity failure),
and the pool ends with at most ceil(k / g) = (k + g - 1) / g blocks, every
block of capacity at least g. -/
theorem c6_alloc1_growth (pef : Bool) (g es k : Nat)
    (hg : 0 < g) (hes : 0 < es) (hesW : es < W) (hk : g < k) :
    (alloc1Run pef k (initPool g es)).1 = true ∧
    (alloc1Run pef k (initPool g es)).2.block_elems.length ≤ (k + g - 1) / g ∧
    ∀ c ∈ (alloc1Run pef k (initPool g es)).2.block_elems, g ≤ c := by
  have hinit : initPool g es = poolShape g es 1 0 := by
    simp [initPool, addBlock, addBlockT, poolShape, hg.ne']
  rw [hinit, alloc1Run_shape pef g es hg hes hesW k 1 0 (by omega) (by omega)]
  refine ⟨rfl, ?_, ?_⟩
  · simp only [poolShape, List.length_replicate]
    by_cases hgw : g + 1 < W
    · rw [stepBO_closed g hg hgw k (by omega)]
      have hkg : k + g - 1 = (k - 1) + g := by omega
      rw [hkg, Nat.add_div_right _ hg]
    · rw [stepBO_fst_const g (by omega) k (1, 0)]
      exact (Nat.one_le_div_iff hg).mpr (by omega)
  · intro c hc
    simp only [poolShape, List.mem_replicate] at hc
    omega

theorem c6_witness :
    0 < 3 ∧ 0 < 1 ∧ 1 < W ∧ 3 < 8 ∧
    ((alloc1Run false 8 (initPool 3 1)).1 = true ∧
     (alloc1Run false 8 (initPool 3 1)).2.block_elems.length ≤ (8 + 3 - 1) / 3 ∧
     ∀ c ∈ (alloc1Run false 8 (initPool 3 1)).2.block_elems, 3 ≤ c) :=
  ⟨by decide, by decide, by decide, by decide,
    c6_alloc1_growth false 3 1 8 (by decide) (by decide) (by decide) (by decide)⟩

end CustomAlloc
